import Mathlib

/-!
# Verification of the `digest` variable-output adaptor layer

Shallow embedding of `src/digest/src/core_api/ct_variable.rs` and
`src/digest/src/core_api/rt_variable.rs`.

Bytes are modelled as `Nat`, byte slices as `List Nat`, and the wrapped
algorithm (the `VariableOutputCore` trait, an external collaborator whose
implementations are out of scope) as a structure of pure functions over an
abstract state type `σ`.  Fallible Rust operations returning
`Result<_, InvalidOutputSize>` are modelled with `Option` (`none` means the
`InvalidOutputSize` error).  The sink closure `f: impl FnOnce(&[u8])` of the
runtime finalize methods is modelled by returning the byte list that the
source passes to the sink.
-/

/-- The collaborator contract of the wrapped algorithm.  Modelled from the
spec: the core algorithm contract of §4.1 (`construct`, `processBlocks`,
`finalizeInto`) together with the associated constants `BlockSize`,
`MaxOutputSize` and the `AlgorithmName` capability.  `processBlocks` is a
pure per-block state mutation, so it is represented by a single-block
`compress` step folded over the emitted blocks; `accepts` is the
algorithm-specific acceptance predicate mentioned in "or the algorithm
rejects that specific length". -/
structure VariableOutputCore (σ : Type) where
  blockSize : Nat
  maxOutputSize : Nat
  algName : String
  accepts : Nat → Bool
  new : Nat → Option σ
  compress : σ → List Nat → σ
  finalizeVariableCore : σ → List Nat → Nat → σ × List Nat

variable {σ : Type}

/-- `UpdateCore::update_blocks` of the wrapped algorithm: a slice of whole
blocks is consumed in order, one compression step per block. -/
def VariableOutputCore.updateBlocks (C : VariableOutputCore σ) (s : σ)
    (blocks : List (List Nat)) : σ :=
  blocks.foldl C.compress s

/-- The construction contract of §4.1: `construct(outputLength)` fails with
`InvalidOutputSize` exactly when the length is zero, exceeds
`MaxOutputSize`, or is rejected by the specific algorithm. -/
def NewContract (C : VariableOutputCore σ) : Prop :=
  ∀ n, (C.new n).isSome ↔ (0 < n ∧ n ≤ C.maxOutputSize ∧ C.accepts n = true)

/-- Fuel-indexed worker for the block buffer: splits `data` into complete
blocks of `bs` bytes plus a short remainder.  The fuel (always instantiated
with `data.length`) only makes the recursion structural. -/
def digestBlocksAux (bs : Nat) : Nat → List Nat → List (List Nat) × List Nat
  | 0, data => ([], data)
  | fuel + 1, data =>
    if 0 < bs ∧ bs ≤ data.length then
      let r := digestBlocksAux bs fuel (data.drop bs)
      (data.take bs :: r.1, r.2)
    else ([], data)

/-- `BlockBuffer::digest_blocks` restricted to its observable effect.
Modelled from the spec: the block-buffer collaborator of §4.4 ("emits every
complete block formed by concatenating prior leftovers with new bytes, in
order, then retains any new leftover").  Given the already-concatenated
pending-plus-input bytes it returns the emitted blocks and the retained
leftover. -/
def digestBlocks (bs : Nat) (data : List Nat) : List (List Nat) × List Nat :=
  digestBlocksAux bs data.length data

/-- `RtVariableCoreWrapper<T>`: the runtime adaptor owns its core, its block
buffer (the pending bytes), and the validated output size. -/
structure RtVariableCoreWrapper (σ : Type) where
  core : σ
  buffer : List Nat
  output_size : Nat
deriving DecidableEq

/-- `VariableOutput::new`: validate by delegating to `T::new`, and on success
pair the fresh core with an empty buffer and the stored length. -/
def RtVariableCoreWrapper.new (C : VariableOutputCore σ) (output_size : Nat) :
    Option (RtVariableCoreWrapper σ) :=
  (C.new output_size).map fun core =>
    { core := core, buffer := [], output_size := output_size }

/-- `Update::update`: feed the input through the block buffer, flushing every
complete block through `update_blocks` in input order and retaining the
trailing remainder. -/
def RtVariableCoreWrapper.update (C : VariableOutputCore σ)
    (w : RtVariableCoreWrapper σ) (input : List Nat) : RtVariableCoreWrapper σ :=
  let r := digestBlocks C.blockSize (w.buffer ++ input)
  { core := C.updateBlocks w.core r.1, buffer := r.2,
    output_size := w.output_size }

/-- `Reset::reset` as compiled in release mode: reconstruct the core with the
stored `output_size`; if that reconstruction fails the `debug_assert!` is a
no-op, the stale core is kept, and the buffer is cleared regardless. -/
def RtVariableCoreWrapper.reset (C : VariableOutputCore σ)
    (w : RtVariableCoreWrapper σ) : RtVariableCoreWrapper σ :=
  match C.new w.output_size with
  | some v => { core := v, buffer := [], output_size := w.output_size }
  | none => { core := w.core, buffer := [], output_size := w.output_size }

/-- `VariableOutput::finalize_variable`: finalize the core over the buffered
remainder; the returned list is the slice handed to the sink closure. -/
def RtVariableCoreWrapper.finalize_variable (C : VariableOutputCore σ)
    (w : RtVariableCoreWrapper σ) : List Nat :=
  (C.finalizeVariableCore w.core w.buffer w.output_size).2

/-- `VariableOutput::finalize_variable_reset`: same delivery, then `reset`
runs on the post-finalize state.  Returns the sink slice and the adaptor
left behind. -/
def RtVariableCoreWrapper.finalize_variable_reset (C : VariableOutputCore σ)
    (w : RtVariableCoreWrapper σ) : List Nat × RtVariableCoreWrapper σ :=
  let r := C.finalizeVariableCore w.core w.buffer w.output_size
  (r.2, RtVariableCoreWrapper.reset C
    { core := r.1, buffer := w.buffer, output_size := w.output_size })

/-- `fmt::Debug::fmt` for the runtime adaptor, with the formatter modelled as
the string written so far: the algorithm name then the opaque marker; the
receiver `w` is never inspected (the source only names the type `T`). -/
def RtVariableCoreWrapper.debugFmt (C : VariableOutputCore σ)
    (_w : RtVariableCoreWrapper σ) (f : String) : String :=
  (f ++ C.algName) ++ " \x7b .. \x7d"

/-- `CtVariableCoreWrapper<T, OutSize>`: the compile-time adaptor stores only
the inner core; `OutSize` is a type-level constant, passed here as an
explicit `Nat` argument to each operation. -/
structure CtVariableCoreWrapper (σ : Type) where
  inner : σ
deriving DecidableEq

/-- `UpdateCore::update_blocks` of the compile-time adaptor: forwards
directly to the inner core. -/
def CtVariableCoreWrapper.update_blocks (C : VariableOutputCore σ)
    (w : CtVariableCoreWrapper σ) (blocks : List (List Nat)) :
    CtVariableCoreWrapper σ :=
  { inner := C.updateBlocks w.inner blocks }

/-- `FixedOutputCore::finalize_fixed_core`: finalize the inner core over the
caller-supplied buffer into the `OutSize`-sized output array, modelled as
the produced byte list. -/
def CtVariableCoreWrapper.finalize_fixed_core (C : VariableOutputCore σ)
    (outSize : Nat) (w : CtVariableCoreWrapper σ) (buffer : List Nat) :
    CtVariableCoreWrapper σ × List Nat :=
  let r := C.finalizeVariableCore w.inner buffer outSize
  ({ inner := r.1 }, r.2)

/-- `Default::default`: `T::new(OutSize::USIZE).unwrap()`.  The `unwrap`
panic on a construction error is modelled by `none`. -/
def CtVariableCoreWrapper.default (C : VariableOutputCore σ) (outSize : Nat) :
    Option (CtVariableCoreWrapper σ) :=
  (C.new outSize).map fun c => { inner := c }

/-- `Reset::reset`: `*self = Default::default()`; the previous state is
discarded unread. -/
def CtVariableCoreWrapper.reset (C : VariableOutputCore σ) (outSize : Nat)
    (_w : CtVariableCoreWrapper σ) : Option (CtVariableCoreWrapper σ) :=
  CtVariableCoreWrapper.default C outSize

/-- `AlgorithmName::write_alg_name` of the compile-time adaptor: the inner
name, then `"_"`, then the decimal rendering of `OutSize::USIZE`, written to
the formatter in that order. -/
def CtVariableCoreWrapper.write_alg_name (C : VariableOutputCore σ)
    (outSize : Nat) (f : String) : String :=
  ((f ++ C.algName) ++ "_") ++ Nat.repr outSize

/-- States of the runtime adaptor reachable from a successful construction
with requested length `k` by any sequence of `update`, `reset` and
`finalize_variable_reset` operations. -/
inductive Reachable (C : VariableOutputCore σ) (k : Nat) :
    RtVariableCoreWrapper σ → Prop where
  | init (w : RtVariableCoreWrapper σ) (h : RtVariableCoreWrapper.new C k = some w) :
      Reachable C k w
  | step_update (w : RtVariableCoreWrapper σ) (input : List Nat)
      (h : Reachable C k w) : Reachable C k (RtVariableCoreWrapper.update C w input)
  | step_reset (w : RtVariableCoreWrapper σ) (h : Reachable C k w) :
      Reachable C k (RtVariableCoreWrapper.reset C w)
  | step_finalize_reset (w : RtVariableCoreWrapper σ) (h : Reachable C k w) :
      Reachable C k (RtVariableCoreWrapper.finalize_variable_reset C w).2

/-- A small concrete algorithm used to exhibit witnesses: block size 2,
maximum output size 4, state = the list of blocks absorbed so far, output =
`n` copies of a state-dependent byte. -/
def testCore : VariableOutputCore (List (List Nat)) where
  blockSize := 2
  maxOutputSize := 4
  algName := "TestAlg"
  accepts := fun _ => true
  new := fun n => if 0 < n ∧ n ≤ 4 then some [] else none
  compress := fun s b => s ++ [b]
  finalizeVariableCore := fun s rest n =>
    (s ++ [rest], List.replicate n ((s.flatten.sum + rest.sum + 1) % 256))

/-!
## Block-buffer lemmas

The buffer model is a plain chunking of the concatenated bytes, so the
spec's §4.4 obligations (complete blocks in order, no reordering, no
dropping) and the composition law needed for chunk-invariance are provable
facts about `digestBlocks`.
-/

theorem digestBlocksAux_mono (bs : Nat) :
    ∀ (f1 f2 : Nat) (data : List Nat), data.length ≤ f1 → data.length ≤ f2 →
      digestBlocksAux bs f1 data = digestBlocksAux bs f2 data := by
  intro f1
  induction f1 with
  | zero =>
    intro f2 data h1 _
    have hd : data = [] := List.length_eq_zero.mp (Nat.le_zero.mp h1)
    subst hd
    cases f2 with
    | zero => rfl
    | succ f2 =>
      simp only [digestBlocksAux]
      rw [if_neg]
      rintro ⟨hbs, hle⟩
      simp at hle
      omega
  | succ f1 ih =>
    intro f2 data h1 h2
    cases f2 with
    | zero =>
      have hd : data = [] := List.length_eq_zero.mp (Nat.le_zero.mp h2)
      subst hd
      simp only [digestBlocksAux]
      rw [if_neg]
      rintro ⟨hbs, hle⟩
      simp at hle
      omega
    | succ f2 =>
      simp only [digestBlocksAux]
      by_cases h : 0 < bs ∧ bs ≤ data.length
      · rw [if_pos h, if_pos h]
        have := ih f2 (data.drop bs) (by simp; omega) (by simp; omega)
        rw [this]
      · rw [if_neg h, if_neg h]

/-- Unfolding equation for `digestBlocks`. -/
theorem digestBlocks_eq (bs : Nat) (data : List Nat) :
    digestBlocks bs data =
      if 0 < bs ∧ bs ≤ data.length then
        ((data.take bs) :: (digestBlocks bs (data.drop bs)).1,
          (digestBlocks bs (data.drop bs)).2)
      else ([], data) := by
  by_cases h : 0 < bs ∧ bs ≤ data.length
  · rw [if_pos h]
    obtain ⟨hbs, hle⟩ := h
    have hlen : 0 < data.length := Nat.lt_of_lt_of_le hbs hle
    obtain ⟨m, hm⟩ : ∃ m, data.length = m + 1 := ⟨data.length - 1, by omega⟩
    unfold digestBlocks
    rw [hm]
    simp only [digestBlocksAux]
    rw [if_pos ⟨hbs, hle⟩]
    have := digestBlocksAux_mono bs m (data.drop bs).length (data.drop bs)
      (by simp; omega) (Nat.le_refl _)
    rw [this]
  · rw [if_neg h]
    unfold digestBlocks
    cases hd : data.length with
    | zero => rfl
    | succ m =>
      simp only [digestBlocksAux]
      rw [if_neg]
      intro hc
      exact h hc

/-- The buffer never reorders, duplicates or drops bytes: the emitted blocks
joined with the leftover reproduce the input. -/
theorem digestBlocks_flatten (bs : Nat) : ∀ data : List Nat,
    (digestBlocks bs data).1.flatten ++ (digestBlocks bs data).2 = data := by
  suffices h : ∀ (n : Nat) (data : List Nat), data.length ≤ n →
      (digestBlocks bs data).1.flatten ++ (digestBlocks bs data).2 = data by
    intro data
    exact h data.length data (Nat.le_refl _)
  intro n
  induction n using Nat.strong_induction_on with
  | _ n ih =>
    intro data hn
    rw [digestBlocks_eq]
    by_cases h : 0 < bs ∧ bs ≤ data.length
    · rw [if_pos h]
      simp only [List.flatten_cons, List.append_assoc]
      have hlt : 0 < n := by omega
      rw [ih (n - 1) (by omega) (data.drop bs) (by simp; omega)]
      exact List.take_append_drop bs data
    · rw [if_neg h]
      simp

/-- Composition law: feeding `d ++ e` at once emits the blocks of `d`
followed by the blocks of (leftover of `d`) ++ `e`, with the latter's
leftover. -/
theorem digestBlocks_append (bs : Nat) : ∀ (d e : List Nat),
    digestBlocks bs (d ++ e) =
      ((digestBlocks bs d).1 ++ (digestBlocks bs ((digestBlocks bs d).2 ++ e)).1,
        (digestBlocks bs ((digestBlocks bs d).2 ++ e)).2) := by
  suffices h : ∀ (n : Nat) (d e : List Nat), d.length ≤ n →
      digestBlocks bs (d ++ e) =
        ((digestBlocks bs d).1 ++
            (digestBlocks bs ((digestBlocks bs d).2 ++ e)).1,
          (digestBlocks bs ((digestBlocks bs d).2 ++ e)).2) by
    intro d e
    exact h d.length d e (Nat.le_refl _)
  intro n
  induction n using Nat.strong_induction_on with
  | _ n ih =>
    intro d e hn
    by_cases h : 0 < bs ∧ bs ≤ d.length
    · obtain ⟨hbs, hle⟩ := h
      have h2 : 0 < bs ∧ bs ≤ (d ++ e).length := by
        constructor
        · exact hbs
        · simp; omega
      rw [digestBlocks_eq bs (d ++ e), if_pos h2, digestBlocks_eq bs d,
        if_pos ⟨hbs, hle⟩]
      rw [List.take_append_of_le_length hle, List.drop_append_of_le_length hle]
      rw [ih (n - 1) (by omega) (d.drop bs) e (by simp; omega)]
      simp
    · rw [digestBlocks_eq bs d, if_neg h]
      simp

/-!
## Runtime-adaptor composition lemmas
-/

/-- Two consecutive `update` calls have the same effect as one call on the
concatenated input. -/
theorem update_update (C : VariableOutputCore σ) (w : RtVariableCoreWrapper σ)
    (a b : List Nat) :
    RtVariableCoreWrapper.update C (RtVariableCoreWrapper.update C w a) b =
      RtVariableCoreWrapper.update C w (a ++ b) := by
  simp only [RtVariableCoreWrapper.update]
  have h := digestBlocks_append C.blockSize (w.buffer ++ a) b
  rw [List.append_assoc] at h
  rw [h]
  simp [VariableOutputCore.updateBlocks, List.foldl_append]

/-- Folding `update` over a list of chunks after a first chunk equals a
single `update` on the concatenation. -/
theorem foldl_update (C : VariableOutputCore σ) (w : RtVariableCoreWrapper σ)
    (c0 : List Nat) : ∀ chunks : List (List Nat),
    chunks.foldl (RtVariableCoreWrapper.update C)
        (RtVariableCoreWrapper.update C w c0) =
      RtVariableCoreWrapper.update C w (c0 ++ chunks.flatten) := by
  intro chunks
  induction chunks generalizing c0 with
  | nil => simp
  | cons c cs ih =>
    simp only [List.foldl_cons, List.flatten_cons]
    rw [update_update, ih (c0 ++ c), List.append_assoc]

/-- Two consecutive `update_blocks` calls on the compile-time adaptor have
the same effect as one call on the concatenated block lists. -/
theorem ct_update_blocks_update_blocks (C : VariableOutputCore σ)
    (w : CtVariableCoreWrapper σ) (b1 b2 : List (List Nat)) :
    CtVariableCoreWrapper.update_blocks C
        (CtVariableCoreWrapper.update_blocks C w b1) b2 =
      CtVariableCoreWrapper.update_blocks C w (b1 ++ b2) := by
  simp [CtVariableCoreWrapper.update_blocks, VariableOutputCore.updateBlocks,
    List.foldl_append]

/-- `update` with the empty input is the identity on freshly constructed
adaptors (their buffer is empty). -/
theorem update_nil_of_new (C : VariableOutputCore σ) (k : Nat)
    (w : RtVariableCoreWrapper σ) (h : RtVariableCoreWrapper.new C k = some w) :
    RtVariableCoreWrapper.update C w [] = w := by
  simp only [RtVariableCoreWrapper.new, Option.map_eq_some'] at h
  obtain ⟨c, _, rfl⟩ := h
  simp only [RtVariableCoreWrapper.update, List.append_nil]
  have h0 : digestBlocks C.blockSize ([] : List Nat) = ([], []) := by
    rw [digestBlocks_eq, if_neg]
    rintro ⟨hbs, hle⟩
    simp at hle
    omega
  simp [h0, VariableOutputCore.updateBlocks]

/-!
## Reachability helpers
-/

theorem reachable_output_size (C : VariableOutputCore σ) (k : Nat)
    (w : RtVariableCoreWrapper σ) (hw : Reachable C k w) : w.output_size = k := by
  induction hw with
  | init w h =>
    simp only [RtVariableCoreWrapper.new, Option.map_eq_some'] at h
    obtain ⟨c, _, rfl⟩ := h
    rfl
  | step_update w input h ih => exact ih
  | step_reset w h ih =>
    simp only [RtVariableCoreWrapper.reset]
    cases C.new w.output_size <;> simpa using ih
  | step_finalize_reset w h ih =>
    simp only [RtVariableCoreWrapper.finalize_variable_reset,
      RtVariableCoreWrapper.reset]
    cases C.new w.output_size <;> simpa using ih

theorem reachable_size_bounds (C : VariableOutputCore σ) (hC : NewContract C)
    (k : Nat) (w : RtVariableCoreWrapper σ) (hw : Reachable C k w) :
    0 < k ∧ k ≤ C.maxOutputSize := by
  induction hw with
  | init w h =>
    simp only [RtVariableCoreWrapper.new, Option.map_eq_some'] at h
    obtain ⟨c, hc, _⟩ := h
    have := (hC k).mp (by simp [hc])
    exact ⟨this.1, this.2.1⟩
  | step_update w input h ih => exact ih
  | step_reset w h ih => exact ih
  | step_finalize_reset w h ih => exact ih

/-- The concrete test algorithm satisfies the construction contract. -/
theorem testCore_contract : NewContract testCore := by
  intro n
  by_cases h : 0 < n ∧ n ≤ 4 <;> simp [testCore, h]

/-!
## The claims
-/

/-- C1: Chunk-invariance of the Runtime Adaptor: for every byte sequence
(given as `chunks.flatten`) and every partition of it into consecutive
chunks, calling `update` once per chunk in order and then finalizing
produces the same output bytes as a single `update` of the whole sequence
followed by the same finalize — indeed the adaptor states themselves are
equal. -/
theorem chunk_invariance_rt (C : VariableOutputCore σ) (k : Nat)
    (w0 : RtVariableCoreWrapper σ)
    (h : RtVariableCoreWrapper.new C k = some w0) (chunks : List (List Nat)) :
    chunks.foldl (RtVariableCoreWrapper.update C) w0 =
      RtVariableCoreWrapper.update C w0 chunks.flatten ∧
    RtVariableCoreWrapper.finalize_variable C
        (chunks.foldl (RtVariableCoreWrapper.update C) w0) =
      RtVariableCoreWrapper.finalize_variable C
        (RtVariableCoreWrapper.update C w0 chunks.flatten) ∧
    (RtVariableCoreWrapper.finalize_variable_reset C
        (chunks.foldl (RtVariableCoreWrapper.update C) w0)).1 =
      (RtVariableCoreWrapper.finalize_variable_reset C
        (RtVariableCoreWrapper.update C w0 chunks.flatten)).1 := by
  have hstate : chunks.foldl (RtVariableCoreWrapper.update C) w0 =
      RtVariableCoreWrapper.update C w0 chunks.flatten := by
    cases chunks with
    | nil =>
      simp only [List.foldl_nil, List.flatten_nil]
      exact (update_nil_of_new C k w0 h).symm
    | cons c cs =>
      simp only [List.foldl_cons, List.flatten_cons]
      exact foldl_update C w0 c cs
  exact ⟨hstate, by rw [hstate], by rw [hstate]⟩

theorem chunk_invariance_rt_witness :
    RtVariableCoreWrapper.new testCore 3 =
        some { core := [], buffer := [], output_size := 3 } ∧
    [[1], [2, 3], [], [4, 5, 6, 7]].foldl (RtVariableCoreWrapper.update testCore)
        { core := [], buffer := [], output_size := 3 } =
      RtVariableCoreWrapper.update testCore
        { core := [], buffer := [], output_size := 3 }
        [[1], [2, 3], [], [4, 5, 6, 7]].flatten :=
  ⟨by decide,
    (chunk_invariance_rt testCore 3
      { core := [], buffer := [], output_size := 3 } (by decide)
      [[1], [2, 3], [], [4, 5, 6, 7]]).1⟩

/-- C2: Exact-length output: assuming the core's `finalize_variable_core`
writes exactly the requested number of bytes, the Runtime Adaptor's
`finalize_variable` and `finalize_variable_reset` deliver exactly
`output_size` (= the validated construction length `k`) bytes to the sink,
for every reachable adaptor, and the Compile-Time Adaptor's
`finalize_fixed_core` writes exactly `OutSize` bytes. -/
theorem exact_output_length (C : VariableOutputCore σ)
    (hF : ∀ (s : σ) (rest : List Nat) (n : Nat),
      ((C.finalizeVariableCore s rest n).2).length = n)
    (k : Nat) (w : RtVariableCoreWrapper σ) (hw : Reachable C k w)
    (outSize : Nat) (ct : CtVariableCoreWrapper σ) (buf : List Nat) :
    (RtVariableCoreWrapper.finalize_variable C w).length = k ∧
    ((RtVariableCoreWrapper.finalize_variable_reset C w).1).length = k ∧
    ((CtVariableCoreWrapper.finalize_fixed_core C outSize ct buf).2).length =
      outSize := by
  have hos := reachable_output_size C k w hw
  refine ⟨?_, ?_, ?_⟩
  · rw [RtVariableCoreWrapper.finalize_variable, hF, hos]
  · rw [RtVariableCoreWrapper.finalize_variable_reset]
    simp only
    rw [hF, hos]
  · rw [CtVariableCoreWrapper.finalize_fixed_core]
    simp only
    rw [hF]

theorem exact_output_length_witness :
    (RtVariableCoreWrapper.finalize_variable testCore
        { core := [], buffer := [], output_size := 3 }).length = 3 ∧
    ((RtVariableCoreWrapper.finalize_variable_reset testCore
        { core := [], buffer := [], output_size := 3 }).1).length = 3 ∧
    ((CtVariableCoreWrapper.finalize_fixed_core testCore 2
        { inner := [] } [9]).2).length = 2 :=
  exact_output_length testCore (fun s rest n => by simp [testCore]) 3
    { core := [], buffer := [], output_size := 3 }
    (Reachable.init _ (by decide)) 2 { inner := [] } [9]

/-- C3: Error surface of the Runtime Adaptor: under the construction
contract, `new` succeeds exactly for the lengths `k` with
`0 < k ≤ MaxOutputSize` that the wrapped algorithm accepts, and it returns
`InvalidOutputSize` (`none`) exactly when the wrapped algorithm's
constructor does; `update` and the finalize operations are total functions
of the embedding, so no other operation can raise the error. -/
theorem rt_new_error_surface (C : VariableOutputCore σ) (hC : NewContract C)
    (k : Nat) :
    ((RtVariableCoreWrapper.new C k).isSome ↔
      (0 < k ∧ k ≤ C.maxOutputSize ∧ C.accepts k = true)) ∧
    (RtVariableCoreWrapper.new C k = none ↔ C.new k = none) := by
  constructor
  · rw [← hC k]
    simp [RtVariableCoreWrapper.new]
  · simp [RtVariableCoreWrapper.new]

theorem rt_new_error_surface_witness :
    ((RtVariableCoreWrapper.new testCore 3).isSome ↔
      (0 < 3 ∧ 3 ≤ testCore.maxOutputSize ∧ testCore.accepts 3 = true)) ∧
    (RtVariableCoreWrapper.new testCore 3 = none ↔ testCore.new 3 = none) :=
  rt_new_error_surface testCore testCore_contract 3

/-- C4: Reset equivalence: when reconstruction with the stored length
succeeds (yielding the same fresh adaptor `w0` that construction yields),
`reset` and the reset phase of `finalize_variable_reset` leave exactly that
fresh adaptor, so any input fed afterwards finalizes identically to a fresh
adaptor fed the same input; and the Compile-Time Adaptor's `reset` is
definitionally its `default` construction. -/
theorem reset_equivalence (C : VariableOutputCore σ)
    (w w0 : RtVariableCoreWrapper σ)
    (h : RtVariableCoreWrapper.new C w.output_size = some w0)
    (chunks : List (List Nat)) (outSize : Nat) (ct : CtVariableCoreWrapper σ) :
    RtVariableCoreWrapper.reset C w = w0 ∧
    (RtVariableCoreWrapper.finalize_variable_reset C w).2 = w0 ∧
    RtVariableCoreWrapper.finalize_variable C
        (chunks.foldl (RtVariableCoreWrapper.update C)
          (RtVariableCoreWrapper.reset C w)) =
      RtVariableCoreWrapper.finalize_variable C
        (chunks.foldl (RtVariableCoreWrapper.update C) w0) ∧
    CtVariableCoreWrapper.reset C outSize ct =
      CtVariableCoreWrapper.default C outSize := by
  simp only [RtVariableCoreWrapper.new, Option.map_eq_some'] at h
  obtain ⟨c, hc, hw0⟩ := h
  have h1 : RtVariableCoreWrapper.reset C w = w0 := by
    rw [RtVariableCoreWrapper.reset, hc, ← hw0]
  have h2 : (RtVariableCoreWrapper.finalize_variable_reset C w).2 = w0 := by
    simp only [RtVariableCoreWrapper.finalize_variable_reset,
      RtVariableCoreWrapper.reset]
    rw [hc, ← hw0]
  exact ⟨h1, h2, by rw [h1], rfl⟩

theorem reset_equivalence_witness :
    RtVariableCoreWrapper.reset testCore
        { core := [[9, 9]], buffer := [5], output_size := 3 } =
      { core := [], buffer := [], output_size := 3 } ∧
    (RtVariableCoreWrapper.finalize_variable_reset testCore
        { core := [[9, 9]], buffer := [5], output_size := 3 }).2 =
      { core := [], buffer := [], output_size := 3 } ∧
    RtVariableCoreWrapper.finalize_variable testCore
        ([[1, 2, 3]].foldl (RtVariableCoreWrapper.update testCore)
          (RtVariableCoreWrapper.reset testCore
            { core := [[9, 9]], buffer := [5], output_size := 3 })) =
      RtVariableCoreWrapper.finalize_variable testCore
        ([[1, 2, 3]].foldl (RtVariableCoreWrapper.update testCore)
          { core := [], buffer := [], output_size := 3 }) ∧
    CtVariableCoreWrapper.reset testCore 2 { inner := [[7, 7]] } =
      CtVariableCoreWrapper.default testCore 2 :=
  reset_equivalence testCore { core := [[9, 9]], buffer := [5], output_size := 3 }
    { core := [], buffer := [], output_size := 3 } (by decide) [[1, 2, 3]] 2
    { inner := [[7, 7]] }

/-- C5: Output-length invariant: every Runtime Adaptor state reachable from
a successful construction with length `k` via `update`, `reset` and
`finalize_variable_reset` still stores exactly `output_size = k`, and under
the construction contract `0 < output_size ≤ MaxOutputSize`. -/
theorem output_size_invariant (C : VariableOutputCore σ) (hC : NewContract C)
    (k : Nat) (w : RtVariableCoreWrapper σ) (hw : Reachable C k w) :
    w.output_size = k ∧ 0 < w.output_size ∧
      w.output_size ≤ C.maxOutputSize := by
  have h1 := reachable_output_size C k w hw
  have h2 := reachable_size_bounds C hC k w hw
  exact ⟨h1, h1 ▸ h2.1, h1 ▸ h2.2⟩

theorem output_size_invariant_witness :
    ((RtVariableCoreWrapper.finalize_variable_reset testCore
        (RtVariableCoreWrapper.reset testCore
          (RtVariableCoreWrapper.update testCore
            { core := [], buffer := [], output_size := 3 }
            [1, 2, 3]))).2).output_size = 3 ∧
    0 < ((RtVariableCoreWrapper.finalize_variable_reset testCore
        (RtVariableCoreWrapper.reset testCore
          (RtVariableCoreWrapper.update testCore
            { core := [], buffer := [], output_size := 3 }
            [1, 2, 3]))).2).output_size ∧
    ((RtVariableCoreWrapper.finalize_variable_reset testCore
        (RtVariableCoreWrapper.reset testCore
          (RtVariableCoreWrapper.update testCore
            { core := [], buffer := [], output_size := 3 }
            [1, 2, 3]))).2).output_size ≤ testCore.maxOutputSize :=
  output_size_invariant testCore testCore_contract 3 _
    (Reachable.step_finalize_reset _ (Reachable.step_reset _
      (Reachable.step_update _ [1, 2, 3] (Reachable.init _ (by decide)))))

/-- C6 as stated is false: the type-level bound on `OutSize` is only
`OutSize ≤ MaxOutputSize`, not `0 < OutSize`.  Witness: the test algorithm
accepts every length in `(0, MaxOutputSize]` (as the claim assumes), the
build-time constant `OutSize = 0` satisfies the code's static bound
`OutSize ≤ MaxOutputSize`, and yet `default()` fails (the internal
`T::new(OutSize).unwrap()` would panic). -/
theorem ct_default_counterexample :
    (∀ n, n ≤ testCore.maxOutputSize → 0 < n → (testCore.new n).isSome = true) ∧
    (0 : Nat) ≤ testCore.maxOutputSize ∧
    CtVariableCoreWrapper.default testCore 0 = none := by
  refine ⟨by decide, by decide, by decide⟩

/-- C6 amended: for every build-time output size with `0 < OutSize` and
`OutSize ≤ MaxOutputSize` (the code's static bound only guarantees the
latter, so positivity is an extra assumption), and every wrapped algorithm
whose constructor accepts all lengths in `(0, MaxOutputSize]`, `default()`
and `reset()` succeed, i.e. the internal `unwrap` of `T::new(OutSize)` is
unreachable. -/
theorem ct_default_ok (C : VariableOutputCore σ) (outSize : Nat)
    (hpos : 0 < outSize) (hle : outSize ≤ C.maxOutputSize)
    (hacc : ∀ n, n ≤ C.maxOutputSize → 0 < n → (C.new n).isSome = true)
    (ct : CtVariableCoreWrapper σ) :
    (CtVariableCoreWrapper.default C outSize).isSome = true ∧
    (CtVariableCoreWrapper.reset C outSize ct).isSome = true := by
  have h := hacc outSize hle hpos
  constructor
  · simpa [CtVariableCoreWrapper.default] using h
  · simpa [CtVariableCoreWrapper.reset, CtVariableCoreWrapper.default] using h

theorem ct_default_ok_witness :
    (CtVariableCoreWrapper.default testCore 2).isSome = true ∧
    (CtVariableCoreWrapper.reset testCore 2 { inner := [] }).isSome = true :=
  ct_default_ok testCore 2 (by decide) (by decide) (by decide) { inner := [] }

/-- C7: Clone independence, for both adaptors: duplicating an adaptor state
(value semantics: `#[derive(Clone)]` is a deep member-wise copy, and the
embedding's states are immutable values) and then applying divergent update
sequences to the two copies yields, on finalize, exactly the digests of
fresh instances fed prefix-plus-branch from scratch.  For the Runtime
Adaptor the copies of `update C w0 pre` receive the byte sequences `brA`
resp. `brB`; for the Compile-Time Adaptor the copies of
`update_blocks C ct0 pB` receive the block sequences `bA` resp. `bB` and
are finalized through `finalize_fixed_core`. -/
theorem clone_independence (C : VariableOutputCore σ) (k : Nat)
    (w0 : RtVariableCoreWrapper σ)
    (_hnew : RtVariableCoreWrapper.new C k = some w0)
    (pre brA brB : List Nat) (outSize : Nat) (ct0 : CtVariableCoreWrapper σ)
    (_hctnew : CtVariableCoreWrapper.default C outSize = some ct0)
    (pB bA bB : List (List Nat)) (buf : List Nat) :
    RtVariableCoreWrapper.finalize_variable C
        (RtVariableCoreWrapper.update C
          (RtVariableCoreWrapper.update C w0 pre) brA) =
      RtVariableCoreWrapper.finalize_variable C
        (RtVariableCoreWrapper.update C w0 (pre ++ brA)) ∧
    RtVariableCoreWrapper.finalize_variable C
        (RtVariableCoreWrapper.update C
          (RtVariableCoreWrapper.update C w0 pre) brB) =
      RtVariableCoreWrapper.finalize_variable C
        (RtVariableCoreWrapper.update C w0 (pre ++ brB)) ∧
    (CtVariableCoreWrapper.finalize_fixed_core C outSize
        (CtVariableCoreWrapper.update_blocks C
          (CtVariableCoreWrapper.update_blocks C ct0 pB) bA) buf).2 =
      (CtVariableCoreWrapper.finalize_fixed_core C outSize
        (CtVariableCoreWrapper.update_blocks C ct0 (pB ++ bA)) buf).2 ∧
    (CtVariableCoreWrapper.finalize_fixed_core C outSize
        (CtVariableCoreWrapper.update_blocks C
          (CtVariableCoreWrapper.update_blocks C ct0 pB) bB) buf).2 =
      (CtVariableCoreWrapper.finalize_fixed_core C outSize
        (CtVariableCoreWrapper.update_blocks C ct0 (pB ++ bB)) buf).2 :=
  ⟨by rw [update_update], by rw [update_update],
    by rw [ct_update_blocks_update_blocks],
    by rw [ct_update_blocks_update_blocks]⟩

theorem clone_independence_witness :
    RtVariableCoreWrapper.finalize_variable testCore
        (RtVariableCoreWrapper.update testCore
          (RtVariableCoreWrapper.update testCore
            { core := [], buffer := [], output_size := 3 } [1, 2, 3]) [4]) =
      RtVariableCoreWrapper.finalize_variable testCore
        (RtVariableCoreWrapper.update testCore
          { core := [], buffer := [], output_size := 3 } ([1, 2, 3] ++ [4])) ∧
    RtVariableCoreWrapper.finalize_variable testCore
        (RtVariableCoreWrapper.update testCore
          (RtVariableCoreWrapper.update testCore
            { core := [], buffer := [], output_size := 3 } [1, 2, 3])
          [5, 6, 7]) =
      RtVariableCoreWrapper.finalize_variable testCore
        (RtVariableCoreWrapper.update testCore
          { core := [], buffer := [], output_size := 3 }
          ([1, 2, 3] ++ [5, 6, 7])) ∧
    (CtVariableCoreWrapper.finalize_fixed_core testCore 2
        (CtVariableCoreWrapper.update_blocks testCore
          (CtVariableCoreWrapper.update_blocks testCore { inner := [] }
            [[1, 2]]) [[3, 4]]) [9]).2 =
      (CtVariableCoreWrapper.finalize_fixed_core testCore 2
        (CtVariableCoreWrapper.update_blocks testCore { inner := [] }
          ([[1, 2]] ++ [[3, 4]])) [9]).2 ∧
    (CtVariableCoreWrapper.finalize_fixed_core testCore 2
        (CtVariableCoreWrapper.update_blocks testCore
          (CtVariableCoreWrapper.update_blocks testCore { inner := [] }
            [[1, 2]]) [[5, 6], [7, 8]]) [9]).2 =
      (CtVariableCoreWrapper.finalize_fixed_core testCore 2
        (CtVariableCoreWrapper.update_blocks testCore { inner := [] }
          ([[1, 2]] ++ [[5, 6], [7, 8]])) [9]).2 :=
  clone_independence testCore 3 { core := [], buffer := [], output_size := 3 }
    (by decide) [1, 2, 3] [4] [5, 6, 7] 2 { inner := [] } (by decide)
    [[1, 2]] [[3, 4]] [[5, 6], [7, 8]] [9]

/-- C8: Compile-Time Adaptor name composition: `write_alg_name` appends to
the formatter exactly the inner algorithm's name, then the character `_`,
then the decimal rendering (`Nat.repr`) of the build-time output length. -/
theorem ct_write_alg_name_spec (C : VariableOutputCore σ) (outSize : Nat)
    (f : String) :
    CtVariableCoreWrapper.write_alg_name C outSize f =
      f ++ (C.algName ++ "_" ++ Nat.repr outSize) := by
  simp [CtVariableCoreWrapper.write_alg_name, String.append_assoc]

/-- C9: Runtime Adaptor diagnostic formatting: the Debug rendering appends
exactly the algorithm name followed by the literal `" \x7b .. \x7d"`, and
it is the same for any two adaptor states (so neither the core state, the
buffer contents nor the configured output length is exposed). -/
theorem rt_debug_fmt_spec (C : VariableOutputCore σ)
    (w1 w2 : RtVariableCoreWrapper σ) (f : String) :
    RtVariableCoreWrapper.debugFmt C w1 f =
      f ++ (C.algName ++ " \x7b .. \x7d") ∧
    RtVariableCoreWrapper.debugFmt C w1 f =
      RtVariableCoreWrapper.debugFmt C w2 f := by
  constructor
  · simp [RtVariableCoreWrapper.debugFmt, String.append_assoc]
  · rfl

/-- C10: Non-atomic silent failure of the Runtime Adaptor reset (release
builds, where `debug_assert!` is a no-op): if `T::new(output_size)` fails,
`reset` completes without signalling, keeps the stale core, and still
clears the buffer; the reset phase of `finalize_variable_reset` likewise
keeps the post-finalize core and clears the buffer. -/
theorem rt_reset_silent_failure (C : VariableOutputCore σ)
    (w : RtVariableCoreWrapper σ) (h : C.new w.output_size = none) :
    RtVariableCoreWrapper.reset C w =
      { core := w.core, buffer := [], output_size := w.output_size } ∧
    (RtVariableCoreWrapper.finalize_variable_reset C w).2 =
      { core := (C.finalizeVariableCore w.core w.buffer w.output_size).1,
        buffer := [], output_size := w.output_size } := by
  constructor
  · rw [RtVariableCoreWrapper.reset, h]
  · simp only [RtVariableCoreWrapper.finalize_variable_reset,
      RtVariableCoreWrapper.reset]
    rw [h]

theorem rt_reset_silent_failure_witness :
    RtVariableCoreWrapper.reset testCore
        { core := [[1, 2]], buffer := [7], output_size := 0 } =
      { core := [[1, 2]], buffer := [], output_size := 0 } ∧
    (RtVariableCoreWrapper.finalize_variable_reset testCore
        { core := [[1, 2]], buffer := [7], output_size := 0 }).2 =
      { core := (testCore.finalizeVariableCore [[1, 2]] [7] 0).1,
        buffer := [], output_size := 0 } :=
  rt_reset_silent_failure testCore
    { core := [[1, 2]], buffer := [7], output_size := 0 } (by decide)
